import Mathlib

/-!
Shallow embedding of the slrun function runtime (Go sources:
`internal/slrun/runtime.go`, `internal/slrun/types.go`, and the build/server
file defining `createTarContext`, `BuildFunctionImage` and `Start`).

External effects (the Docker engine, the HTTP transport, the filesystem walk)
are modelled as explicit oracles passed to each operation; every operation
additionally returns the list of engine/network calls it issued, so that
claims about which side effects occur ("a stop is issued", "no network
request is made") are statable.
-/

namespace Slrun

/-- `Function` from `types.go`: the configured function record with its
mutable runtime fields (`imageName`, `containerId`, `running`, `port`). -/
structure Func where
  Name : String
  BuildDir : String
  imageName : String := ""
  containerId : String := ""
  running : Bool := false
  port : Int := 0
  deriving Repr, DecidableEq

/-- One entry of the engine's container list (`ContainerList` summary):
the container ID and the image it runs. -/
structure ContainerSummary where
  ID : String
  Image : String
  deriving Repr, DecidableEq

/-- The side-effecting calls the runtime can issue, recorded as a trace. -/
inductive Event where
  | listE : Event
  | stopE (containerId : String) (timeout : Nat) : Event
  | createE (image : String) : Event
  | startE (containerId : String) : Event
  | inspectE (containerId : String) : Event
  | httpGetE (url : String) : Event
  deriving Repr, DecidableEq

/-- Oracle for the Docker engine: the outcome of each engine call.
`createResult` is indexed by the position of the create call within a
reconciliation pass (the engine mints a fresh container per call);
`inspectResult` yields the host-port string the engine allocated. -/
structure Engine where
  listResult : Except String (List ContainerSummary)
  stopResult : String → Nat → Option String
  createResult : Nat → String → Except String String
  startResult : String → Option String
  inspectResult : String → Except String String

/-- Decimal value of a digit list (most significant first). -/
def digitsVal (ds : List Char) : Nat :=
  ds.foldl (fun n c => n * 10 + (c.toNat - 48)) 0

/-- Go `strconv.Atoi` with the error discarded (as in
`function.port, _ = strconv.Atoi(hostPort)`): an optional sign followed by
digits parses to its value, anything else (a failed parse) leaves 0.
Modelled for in-range inputs; the engine's port strings are far below the
overflow range. -/
def atoiOrZero (s : String) : Int :=
  match s.data with
  | [] => 0
  | '-' :: ds =>
    if !ds.isEmpty && ds.all Char.isDigit then -(digitsVal ds : Int) else 0
  | '+' :: ds =>
    if !ds.isEmpty && ds.all Char.isDigit then (digitsVal ds : Int) else 0
  | ds => if ds.all Char.isDigit then (digitsVal ds : Int) else 0

/-- An HTTP response as seen by `callFunction`: the status code and the
outcome of reading the body (`io.ReadAll` may fail). -/
structure HttpResponse where
  status : Nat
  body : Except String String
  deriving Repr

/-- Oracle for the HTTP transport: `http.Get` on a URL either fails with a
transport error or yields a response. -/
def HttpWorld : Type := String → Except String HttpResponse

/-- The URL `callFunction` builds:
`"http://127.0.0.1:" + strconv.Itoa(function.port) + path`. -/
def functionUrl (f : Func) (path : String) : String :=
  "http://127.0.0.1:" ++ toString f.port ++ path

/-- `Runtime.callFunction` from `runtime.go`: issue `http.Get` on the
function's loopback port plus path; propagate transport errors and
body-read errors; otherwise return the body (the status code is never
inspected). -/
def callFunction (http : HttpWorld) (f : Func) (path : String) :
    Except String String × List Event :=
  let url := functionUrl f path
  match http url with
  | .error e => (.error e, [.httpGetE url])
  | .ok resp =>
    match resp.body with
    | .error e => (.error e, [.httpGetE url])
    | .ok b => (.ok b, [.httpGetE url])

/-- `Runtime.CallFunctionByName` from `runtime.go`: scan the configured
functions in order; on the first name match, call it (no check of
`running`); if none matches, return the "not found" error without any
network call. -/
def CallFunctionByName (http : HttpWorld) (funcs : List Func)
    (name path : String) : Except String String × List Event :=
  match funcs with
  | [] => (.error ("function " ++ name ++ " not found"), [])
  | f :: rest =>
    if f.Name = name then callFunction http f path
    else CallFunctionByName http rest name path

/-- `Runtime.updateFunctionStatus` inner loop for one function: scan the
container list; every summary whose image equals the function's
`imageName` overwrites `containerId` and sets `running := true` (the last
match wins); a function with no match is left unchanged. -/
def updateOne (summary : List ContainerSummary) (f : Func) : Func :=
  summary.foldl
    (fun g s => if s.Image = g.imageName then
        { g with containerId := s.ID, running := true }
      else g) f

/-- `Runtime.updateFunctionStatus`: apply `updateOne` to every configured
function against the engine's container list. -/
def updateFunctionStatus (summary : List ContainerSummary)
    (funcs : List Func) : List Func :=
  funcs.map (updateOne summary)

/-- `Runtime.stopFunction`: issue a container stop against the function's
`containerId` with `Timeout: 0` (no graceful shutdown). The function
record itself is not modified. -/
def stopFunction (eng : Engine) (f : Func) : Option String × List Event :=
  (eng.stopResult f.containerId 0, [.stopE f.containerId 0])

/-- `Runtime.startFunction`: create a container from the function's image
(loopback port binding, engine-allocated host port), start it, inspect it
to read the allocated host port, then record `containerId` and `port`
(via `strconv.Atoi` with the error ignored). Any engine error aborts
before the function record is touched. `k` is the position of this create
call within the reconciliation pass. -/
def startFunction (eng : Engine) (k : Nat) (f : Func) :
    Except String Func × List Event :=
  match eng.createResult k f.imageName with
  | .error e => (.error e, [.createE f.imageName])
  | .ok cid =>
    match eng.startResult cid with
    | some e => (.error e, [.createE f.imageName, .startE cid])
    | none =>
      match eng.inspectResult cid with
      | .error e => (.error e, [.createE f.imageName, .startE cid, .inspectE cid])
      | .ok hostPort =>
        (.ok { f with containerId := cid, port := atoiOrZero hostPort },
         [.createE f.imageName, .startE cid, .inspectE cid])

/-- The converge-to-empty loop of `Runtime.Start`: for each function with
`running = true`, issue `stopFunction`; the first failure aborts the loop.
No function record is modified. -/
def stopRunningLoop (eng : Engine) : List Func → Option String × List Event
  | [] => (none, [])
  | f :: rest =>
    if f.running then
      match (stopFunction eng f).1 with
      | some e => (some e, [.stopE f.containerId 0])
      | none =>
        let r := stopRunningLoop eng rest
        (r.1, .stopE f.containerId 0 :: r.2)
    else stopRunningLoop eng rest

/-- The start loop of `Runtime.Start`: start each function in order; the
first failure aborts the loop, leaving the failing function and all later
functions unchanged. Returns the error (if any), the resulting function
list, and the trace of engine calls. -/
def startLoop (eng : Engine) (k : Nat) :
    List Func → Option String × List Func × List Event
  | [] => (none, [], [])
  | f :: rest =>
    match startFunction eng k f with
    | (.error e, ev) => (some e, f :: rest, ev)
    | (.ok f2, ev) =>
      let r := startLoop eng (k + 1) rest
      (r.1, f2 :: r.2.1, ev ++ r.2.2)

/-- `Runtime.Start`: the reconciliation pass — observe
(`updateFunctionStatus` over the engine's container list), converge to
empty (`stopRunningLoop`), then start every function (`startLoop`). Any
error aborts the pass and is returned; the function list reflects all
mutations made up to that point. -/
def Start (eng : Engine) (funcs : List Func) :
    Option String × List Func × List Event :=
  match eng.listResult with
  | .error e => (some e, funcs, [.listE])
  | .ok summary =>
    let funcs1 := updateFunctionStatus summary funcs
    match stopRunningLoop eng funcs1 with
    | (some e, evs) => (some e, funcs1, .listE :: evs)
    | (none, evs) =>
      let r := startLoop eng 0 funcs1
      (r.1, r.2.1, .listE :: (evs ++ r.2.2))

/-- `Runtime.Stop`: issue `stopFunction` against every configured function
in order (with no check of `running`); the first failure is returned and
the remaining functions are not stopped. -/
def Stop (eng : Engine) : List Func → Option String × List Event
  | [] => (none, [])
  | f :: rest =>
    match (stopFunction eng f).1 with
    | some e => (some e, [.stopE f.containerId 0])
    | none =>
      let r := Stop eng rest
      (r.1, .stopE f.containerId 0 :: r.2)

/-- One observation from `filepath.Walk` over the build directory: either a
visited file (relative path, content, whether it is a regular file) or a
walk error handed to the callback. -/
inductive WalkEntry where
  | file (relPath : String) (content : String) (regular : Bool) : WalkEntry
  | failure (e : String) : WalkEntry
  deriving Repr, DecidableEq

/-- `createTarContext`: walk the directory entries in order, writing one
archive entry per file (relative path as the header name; contents copied
only for regular files); the first walk error aborts and is returned. The
archive is modelled as the list of (name, contents) entries. -/
def createTarContext : List WalkEntry → Except String (List (String × String))
  | [] => .ok []
  | .failure e :: _ => .error e
  | .file p c reg :: rest =>
    match createTarContext rest with
    | .error e => .error e
    | .ok l => .ok ((p, if reg then c else "") :: l)

/-- Whether `pat` occurs as a contiguous run inside `s` (helper for
`stringContains`). -/
def charListContains (pat : List Char) : List Char → Bool
  | [] => pat.isEmpty
  | c :: rest => pat.isPrefixOf (c :: rest) || charListContains pat rest

/-- Go `strings.Contains s pat`: `pat` occurs as a substring of `s`. -/
def stringContains (s pat : String) : Bool :=
  charListContains pat.toList s.toList

/-- Oracle for the build-side effects: the filesystem walk of a directory,
the engine's image-remove outcome (keyed by image name), and the engine's
image-build outcome (keyed by build context and tag). -/
structure BuildWorld where
  walk : String → List WalkEntry
  imageRemoveResult : String → Option String
  imageBuildResult : List (String × String) → String → Except String Unit

/-- The build-and-record tail of `BuildFunctionImage`: submit the build
context tagged with the image name; on success record `imageName` on the
function, on failure return the error with the function unchanged. -/
def buildAndRecord (w : BuildWorld) (buildCtx : List (String × String))
    (imageName : String) (f : Func) : Option String × Func :=
  match w.imageBuildResult buildCtx imageName with
  | .error e => (some e, f)
  | .ok _ => (none, { f with imageName := imageName })

/-- `BuildFunctionImage`: package the build directory, best-effort remove
any pre-existing image named `"slrun-" ++ Name` (an error whose text
contains `"No such image: slrun-"` is swallowed, any other removal error
is returned), then build and tag the image and record `imageName` on the
function. Every failure path leaves the function unchanged. -/
def BuildFunctionImage (w : BuildWorld) (f : Func) : Option String × Func :=
  match createTarContext (w.walk f.BuildDir) with
  | .error e => (some e, f)
  | .ok buildCtx =>
    match w.imageRemoveResult ("slrun-" ++ f.Name) with
    | some e =>
      if stringContains e "No such image: slrun-" then
        buildAndRecord w buildCtx ("slrun-" ++ f.Name) f
      else (some e, f)
    | none => buildAndRecord w buildCtx ("slrun-" ++ f.Name) f

/-- Derived observable: the port a successful `startFunction` records for the
`k`-th create call on image `img` (0 when any of the three engine calls on
that path fails). -/
def allocatedPort (eng : Engine) (k : Nat) (img : String) : Int :=
  match eng.createResult k img with
  | .error _ => 0
  | .ok cid =>
    match eng.startResult cid with
    | some _ => 0
    | none =>
      match eng.inspectResult cid with
      | .error _ => 0
      | .ok s => atoiOrZero s

/-- Default function record (Go zero value), used with `List.getD`. -/
def dfltFunc : Func := ⟨"", "", "", "", false, 0⟩

/-- A configured function as loaded from configuration (runtime fields at
their Go zero values). -/
def fEcho : Func := ⟨"echo", "./echo", "", "", false, 0⟩

/-- A function whose image has been built but which has not been started:
the state after `BuildFunctionImage` and before any `Start`. -/
def fEchoB : Func := ⟨"echo", "./echo", "slrun-echo", "", false, 0⟩

/-- A second built, not-yet-started function. -/
def fIdle : Func := ⟨"idle", "./idle", "slrun-idle", "", false, 0⟩

/-- A function observed running as container `"cid1"`. -/
def fRun : Func := ⟨"echo", "./echo", "slrun-echo", "cid1", true, 0⟩

/-- A function that is not running but retains a stale `containerId` and
port from an earlier life. -/
def fStale : Func := ⟨"echo", "./echo", "slrun-echo", "cidX", false, 8080⟩

/-- A running function whose container `"bad"` refuses to stop under
`engStopBad`. -/
def fBad : Func := ⟨"bad", "./bad", "slrun-bad", "bad", true, 0⟩

/-- HTTP transport in which every request fails (connection refused). -/
def httpErr : HttpWorld := fun _ => .error "connection refused"

/-- HTTP transport in which every request yields status 500 with a readable
body `"hello"`. -/
def httpOk500 : HttpWorld := fun _ => .ok ⟨500, .ok "hello"⟩

/-- Engine with no pre-existing containers in which every call succeeds:
the `k`-th create yields container `"c" ++ k`, and inspecting `"c" ++ k`
reports host port `k`. -/
def engAllOk : Engine where
  listResult := .ok []
  stopResult := fun _ _ => none
  createResult := fun k _ => .ok ("c" ++ toString k)
  startResult := fun _ => none
  inspectResult := fun cid => .ok (if cid = "c0" then "0" else if cid = "c1" then "1" else "7")

/-- Engine reporting one pre-existing container `"cid1"` running image
`"slrun-echo"`; stops succeed, creates fail. -/
def engObservedCreateFail : Engine where
  listResult := .ok [⟨"cid1", "slrun-echo"⟩]
  stopResult := fun _ _ => none
  createResult := fun _ _ => .error "create failed"
  startResult := fun _ => some "not started"
  inspectResult := fun _ => .error "not inspected"

/-- Engine in which stopping container `"bad"` fails and every other stop
succeeds. -/
def engStopBad : Engine where
  listResult := .ok []
  stopResult := fun cid _ => if cid = "bad" then some "stop failed" else none
  createResult := fun _ _ => .error "no create"
  startResult := fun _ => some "no start"
  inspectResult := fun _ => .error "no inspect"

/-- Engine with no pre-existing containers in which the first create
succeeds (container `"c0"`, host port 9000) and the second create fails. -/
def engSecondCreateFails : Engine where
  listResult := .ok []
  stopResult := fun _ _ => none
  createResult := fun k _ => if k = 0 then .ok "c0" else .error "boom"
  startResult := fun _ => none
  inspectResult := fun _ => .ok "9000"

/-- Build world in which packaging succeeds, image removal fails with the
engine's image-not-found message, and the build succeeds. -/
def wBuildNoSuch : BuildWorld where
  walk := fun _ => [.file "Dockerfile" "FROM scratch" true]
  imageRemoveResult := fun name =>
    some ("Error response from daemon: No such image: " ++ name)
  imageBuildResult := fun _ _ => .ok ()

/-- Build world in which packaging fails (the walk reports an I/O error). -/
def wBuildWalkFail : BuildWorld where
  walk := fun _ => [.failure "read error"]
  imageRemoveResult := fun _ => none
  imageBuildResult := fun _ _ => .error "build failed"

/-- C9: invoking a name that matches no configured function returns the
"not found" error, for every HTTP transport, every function-table state
(whatever each function's `running` is), with an empty call trace (no
network request is issued). -/
theorem C9_unknown_name_not_found (http : HttpWorld) (funcs : List Func)
    (name path : String) (h : ∀ f ∈ funcs, f.Name ≠ name) :
    CallFunctionByName http funcs name path =
      (.error ("function " ++ name ++ " not found"), []) := by
  induction funcs with
  | nil => rfl
  | cons f rest ih =>
    have hf : ¬ (f.Name = name) := h f (by simp)
    simp only [CallFunctionByName, if_neg hf]
    exact ih (fun g hg => h g (by simp [hg]))

/-- C9 witness: invoking `"nope"` against a table holding only `"echo"`
yields the not-found error and an empty trace. -/
theorem C9_unknown_name_not_found_witness :
    CallFunctionByName httpOk500 [fEchoB] "nope" "/x" =
      (.error ("function nope not found"), []) :=
  C9_unknown_name_not_found httpOk500 [fEchoB] "nope" "/x" (by decide)

/-- C10: `callFunction` returns the response body whenever the request
completes and the body reads, for every status code (500 included); only
a transport failure or a body-read failure yields an error. In every case
exactly one GET against the function's URL is issued. -/
theorem C10_status_code_ignored (http : HttpWorld) (f : Func) (path : String) :
    (∀ status body, http (functionUrl f path) = .ok ⟨status, .ok body⟩ →
      callFunction http f path = (.ok body, [.httpGetE (functionUrl f path)])) ∧
    (∀ status e, http (functionUrl f path) = .ok ⟨status, .error e⟩ →
      callFunction http f path = (.error e, [.httpGetE (functionUrl f path)])) ∧
    (∀ e, http (functionUrl f path) = .error e →
      callFunction http f path = (.error e, [.httpGetE (functionUrl f path)])) := by
  refine ⟨?_, ?_, ?_⟩
  · intro status body h
    simp only [callFunction, h]
  · intro status e h
    simp only [callFunction, h]
  · intro e h
    simp only [callFunction, h]

/-- C10 witness: a status-500 response with body `"hello"` is returned as a
success. -/
theorem C10_status_code_ignored_witness :
    callFunction httpOk500 fEchoB "/x" =
      (.ok "hello", [.httpGetE (functionUrl fEchoB "/x")]) :=
  (C10_status_code_ignored httpOk500 fEchoB "/x").1 500 "hello" rfl

/-- C6: `BuildFunctionImage` either succeeds and records
`"slrun-" ++ Name` as the function's `imageName`, or fails and returns the
function record completely unchanged (every failure path: packaging,
non-not-found removal, engine build). -/
theorem C6_build_records_or_leaves_unset (w : BuildWorld) (f : Func) :
    (∀ f2, BuildFunctionImage w f = (none, f2) →
      f2 = { f with imageName := "slrun-" ++ f.Name }) ∧
    (∀ e f2, BuildFunctionImage w f = (some e, f2) → f2 = f) := by
  constructor
  · intro f2 h
    unfold BuildFunctionImage buildAndRecord at h
    repeat' split at h
    all_goals simp_all
  · intro e f2 h
    unfold BuildFunctionImage buildAndRecord at h
    repeat' split at h
    all_goals simp_all

/-- C6 witness: a successful build records `imageName = "slrun-echo"` on
the configured function. -/
theorem C6_build_records_or_leaves_unset_witness :
    (BuildFunctionImage wBuildNoSuch fEcho).2 =
      { fEcho with imageName := "slrun-echo" } :=
  (C6_build_records_or_leaves_unset wBuildNoSuch fEcho).1
    (BuildFunctionImage wBuildNoSuch fEcho).2 rfl

/-- C5: once packaging has succeeded, a removal error whose text contains
`"No such image: slrun-"` (the engine's not-found message for the derived
image name) is swallowed and the build proceeds exactly as when removal
succeeded; any other removal error is returned with the function
unchanged. -/
theorem C5_remove_not_found_swallowed (w : BuildWorld) (f : Func)
    (buildCtx : List (String × String))
    (htar : createTarContext (w.walk f.BuildDir) = .ok buildCtx) :
    (∀ e, w.imageRemoveResult ("slrun-" ++ f.Name) = some e →
      BuildFunctionImage w f =
        (if stringContains e "No such image: slrun-" then
          buildAndRecord w buildCtx ("slrun-" ++ f.Name) f
        else (some e, f))) ∧
    (w.imageRemoveResult ("slrun-" ++ f.Name) = none →
      BuildFunctionImage w f = buildAndRecord w buildCtx ("slrun-" ++ f.Name) f) := by
  constructor
  · intro e h
    simp only [BuildFunctionImage, htar, h]
  · intro h
    simp only [BuildFunctionImage, htar, h]

/-- C5 witness: with the engine's not-found removal message, the build
proceeds (the swallowed branch of the theorem's conclusion). -/
theorem C5_remove_not_found_swallowed_witness :
    BuildFunctionImage wBuildNoSuch fEcho =
      (if stringContains "Error response from daemon: No such image: slrun-echo"
          "No such image: slrun-" then
        buildAndRecord wBuildNoSuch [("Dockerfile", "FROM scratch")]
          "slrun-echo" fEcho
      else (some "Error response from daemon: No such image: slrun-echo", fEcho)) :=
  (C5_remove_not_found_swallowed wBuildNoSuch fEcho
    [("Dockerfile", "FROM scratch")] rfl).1
    "Error response from daemon: No such image: slrun-echo" rfl

/-- C1 counterexample: `"echo"` is configured and not running (`running =
false`, before any `Start`), yet invoking it does not fail with a
not-running condition: it issues an HTTP GET to port 0 and returns
whatever the transport yields (here a status-500 response's body, as a
success). -/
theorem C1_counterexample :
    fEchoB.running = false ∧
    CallFunctionByName httpOk500 [fEchoB] "echo" "/x" =
      (.ok "hello", [.httpGetE "http://127.0.0.1:0/x"]) :=
  ⟨rfl, rfl⟩

/-- C1 (amended): invoking the first configured function whose name
matches behaves exactly as `callFunction` on it, with no check of
`running`: one HTTP GET to the function's recorded port (0 before any
`Start`) is always issued, and the outcome is whatever the transport
yields — there is no distinct "not running" condition. -/
theorem C1_invoke_ignores_running (http : HttpWorld) (name path : String)
    (pre post : List Func) (f : Func)
    (hpre : ∀ g ∈ pre, g.Name ≠ name) (hf : f.Name = name) :
    CallFunctionByName http (pre ++ f :: post) name path =
      callFunction http f path ∧
    (callFunction http f path).2 = [.httpGetE (functionUrl f path)] := by
  constructor
  · induction pre with
    | nil => simp only [List.nil_append, CallFunctionByName, if_pos hf]
    | cons g rest ih =>
      have hg : ¬ (g.Name = name) := hpre g (by simp)
      simp only [List.cons_append, CallFunctionByName, if_neg hg]
      exact ih (fun g2 hg2 => hpre g2 (by simp [hg2]))
  · rcases h : http (functionUrl f path) with e | resp
    · simp [callFunction, h]
    · rcases hb : resp.body with e | b <;> simp [callFunction, h, hb]

/-- C1 witness: invoking the not-running `"echo"` over a refusing
transport reduces to the plain `callFunction` network attempt. -/
theorem C1_invoke_ignores_running_witness :
    CallFunctionByName httpErr [fEchoB] "echo" "/x" =
      callFunction httpErr fEchoB "/x" ∧
    (callFunction httpErr fEchoB "/x").2 =
      [.httpGetE (functionUrl fEchoB "/x")] :=
  C1_invoke_ignores_running httpErr "echo" "/x" [] [] fEchoB (by decide) rfl

/-- `updateOne` unfolded one container-list entry at a time. -/
theorem updateOne_cons (s : ContainerSummary) (rest : List ContainerSummary)
    (f : Func) :
    updateOne (s :: rest) f =
      updateOne rest
        (if s.Image = f.imageName then
          { f with containerId := s.ID, running := true }
        else f) := by
  by_cases h : s.Image = f.imageName <;> simp [updateOne, h]

/-- A function whose image matches no listed container is left unchanged by
the observe step. -/
theorem updateOne_no_match (summary : List ContainerSummary) (f : Func)
    (h : ∀ s ∈ summary, s.Image ≠ f.imageName) : updateOne summary f = f := by
  induction summary with
  | nil => rfl
  | cons s rest ih =>
    rw [updateOne_cons, if_neg (h s (by simp))]
    exact ih (fun t ht => h t (by simp [ht]))

/-- When the last matching container-list entry is `s`, the observe step
records `s.ID` and sets `running := true`. -/
theorem updateOne_last_match :
    ∀ (pre : List ContainerSummary) (f : Func) (s : ContainerSummary)
      (post : List ContainerSummary),
      s.Image = f.imageName → (∀ t ∈ post, t.Image ≠ f.imageName) →
      updateOne (pre ++ s :: post) f =
        { f with containerId := s.ID, running := true }
  | [], f, s, post, hm, hp => by
    rw [List.nil_append, updateOne_cons, if_pos hm]
    exact updateOne_no_match post _ (by simpa using hp)
  | p :: pre2, f, s, post, hm, hp => by
    rw [List.cons_append, updateOne_cons]
    by_cases hpm : p.Image = f.imageName
    · rw [if_pos hpm]
      have h2 := updateOne_last_match pre2
        { f with containerId := p.ID, running := true } s post (by simpa using hm)
        (by simpa using hp)
      rw [h2]
    · rw [if_neg hpm]
      exact updateOne_last_match pre2 f s post hm hp

/-- C4 (amended): the observe step maps `updateOne` over the configured
functions; a function with a matching container gets the last matching
container's ID recorded and `running := true`, but a function with no
matching container is left entirely unchanged — `running` retains its
previous value rather than being set to false. -/
theorem C4_observe_no_reset (summary : List ContainerSummary) (f : Func) :
    (∀ funcs : List Func,
      updateFunctionStatus summary funcs = funcs.map (updateOne summary)) ∧
    ((∀ s ∈ summary, s.Image ≠ f.imageName) → updateOne summary f = f) ∧
    (∀ pre s post, summary = pre ++ s :: post → s.Image = f.imageName →
      (∀ t ∈ post, t.Image ≠ f.imageName) →
      updateOne summary f = { f with containerId := s.ID, running := true }) := by
  refine ⟨fun funcs => rfl, updateOne_no_match summary f, ?_⟩
  intro pre s post hsum hm hp
  subst hsum
  exact updateOne_last_match pre f s post hm hp

/-- C4 counterexample: a function previously marked running keeps
`running = true` after an observe pass whose container list holds no
matching container — the observe step never sets `running` to false. -/
theorem C4_counterexample :
    fRun.running = true ∧ updateFunctionStatus [] [fRun] = [fRun] :=
  ⟨rfl, rfl⟩

/-- C4 witness: with containers `a:x`, `b:slrun-echo`, `c:y` listed, the
observe step records `"b"` on the `"echo"` function and marks it
running. -/
theorem C4_observe_no_reset_witness :
    updateOne [⟨"a", "x"⟩, ⟨"b", "slrun-echo"⟩, ⟨"c", "y"⟩] fEchoB =
      { fEchoB with containerId := "b", running := true } :=
  (C4_observe_no_reset [⟨"a", "x"⟩, ⟨"b", "slrun-echo"⟩, ⟨"c", "y"⟩]
    fEchoB).2.2 [⟨"a", "x"⟩] ⟨"b", "slrun-echo"⟩ [⟨"c", "y"⟩] rfl rfl
    (by decide)

/-- C7 counterexample: `Stop` issues a timeout-0 stop against a function
that is not tracked as running (`fStale.running = false`); the stop
sequence is not restricted to running functions. -/
theorem C7_counterexample :
    fStale.running = false ∧
    Stop engAllOk [fStale] = (none, [.stopE "cidX" 0]) :=
  ⟨rfl, rfl⟩

/-- C7 (amended): `Stop` issues a timeout-0 stop against every configured
function's `containerId` in order, regardless of `running`; the first
stop failure is returned immediately and the remaining functions are not
stopped. -/
theorem C7_stop_all_first_failure_aborts (eng : Engine) :
    (∀ funcs : List Func,
      (∀ f ∈ funcs, eng.stopResult f.containerId 0 = none) →
      Stop eng funcs = (none, funcs.map (fun f => .stopE f.containerId 0))) ∧
    (∀ (pre : List Func) (f : Func) (post : List Func) (e : String),
      (∀ g ∈ pre, eng.stopResult g.containerId 0 = none) →
      eng.stopResult f.containerId 0 = some e →
      Stop eng (pre ++ f :: post) =
        (some e, pre.map (fun g => .stopE g.containerId 0) ++
          [.stopE f.containerId 0])) := by
  constructor
  · intro funcs h
    induction funcs with
    | nil => rfl
    | cons f rest ih =>
      have hf := h f (by simp)
      simp only [Stop, stopFunction, hf]
      rw [ih (fun g hg => h g (by simp [hg]))]
      simp
  · intro pre f post e hpre hf
    induction pre with
    | nil =>
      simp only [List.nil_append, Stop, stopFunction, hf]
      simp
    | cons g rest ih =>
      have hg := hpre g (by simp)
      simp only [List.cons_append, Stop, stopFunction, hg, List.append_eq]
      rw [ih (fun g2 h2 => hpre g2 (by simp [h2]))]
      simp

/-- C7 witness: with `fBad`'s container refusing to stop, `Stop` stops
`fStale` (not running), fails on `fBad`, and never reaches `fIdle`. -/
theorem C7_stop_all_first_failure_aborts_witness :
    Stop engStopBad [fStale, fBad, fIdle] =
      (some "stop failed", [.stopE "cidX" 0, .stopE "bad" 0]) :=
  (C7_stop_all_first_failure_aborts engStopBad).2 [fStale] fBad [fIdle]
    "stop failed" (by decide) rfl

/-- Inversion of a successful `startFunction`: create, start and inspect
all succeeded, and only `containerId` and `port` of the record changed. -/
theorem startFunction_ok (eng : Engine) (k : Nat) (f f2 : Func)
    (ev : List Event) (h : startFunction eng k f = (.ok f2, ev)) :
    ∃ cid s, eng.createResult k f.imageName = .ok cid ∧
      eng.startResult cid = none ∧ eng.inspectResult cid = .ok s ∧
      f2 = { f with containerId := cid, port := atoiOrZero s } ∧
      ev = [.createE f.imageName, .startE cid, .inspectE cid] := by
  unfold startFunction at h
  rcases hc : eng.createResult k f.imageName with e | cid <;>
    simp only [hc] at h
  · simp at h
  · rcases hs : eng.startResult cid with _ | e <;> simp only [hs] at h
    · rcases hi : eng.inspectResult cid with e | s <;> simp only [hi] at h
      · simp at h
      · simp only [Prod.mk.injEq, Except.ok.injEq] at h
        exact ⟨cid, s, rfl, hs, hi, h.1.symm, h.2.symm⟩
    · simp at h

/-- A successful start loop records, for the function at each position `i`,
the port the engine allocated to the `(k+i)`-th create call, and leaves
`running` and `imageName` untouched. -/
theorem startLoop_ok (eng : Engine) :
    ∀ (funcs : List Func) (k : Nat) (funcs2 : List Func) (evs : List Event),
      startLoop eng k funcs = (none, funcs2, evs) →
      funcs2.length = funcs.length ∧
      ∀ i, i < funcs.length →
        (funcs2.getD i dfltFunc).running = (funcs.getD i dfltFunc).running ∧
        (funcs2.getD i dfltFunc).imageName =
          (funcs.getD i dfltFunc).imageName ∧
        (funcs2.getD i dfltFunc).port =
          allocatedPort eng (k + i) ((funcs.getD i dfltFunc).imageName)
  | [], k, funcs2, evs, h => by
    simp only [startLoop, Prod.mk.injEq] at h
    obtain ⟨h1, h2⟩ := h.2
    subst h1; subst h2
    exact ⟨rfl, fun i hi => absurd hi (Nat.not_lt_zero i)⟩
  | f :: rest, k, funcs2, evs, h => by
    simp only [startLoop] at h
    rcases hsf : startFunction eng k f with ⟨res, ev⟩
    rw [hsf] at h
    cases res with
    | error e => simp at h
    | ok f2 =>
      rcases hr : startLoop eng (k + 1) rest with ⟨o2, rest2, evs2⟩
      rw [hr] at h
      simp only [Prod.mk.injEq] at h
      obtain ⟨ho, hl, he⟩ := h
      subst ho; subst hl; subst he
      obtain ⟨ihlen, ihidx⟩ := startLoop_ok eng rest (k + 1) rest2 evs2 hr
      obtain ⟨cid, s, hc, hs, hi, hf2, hev⟩ :=
        startFunction_ok eng k f f2 ev hsf
      subst hf2
      refine ⟨by simp [ihlen], ?_⟩
      intro i hilt
      cases i with
      | zero =>
        refine ⟨rfl, rfl, ?_⟩
        simp only [List.getD_cons_zero]
        simp [allocatedPort, Nat.add_zero, hc, hs, hi]
      | succ j =>
        simp only [List.getD_cons_succ]
        have hj : j < rest.length := by
          simpa [Nat.succ_lt_succ_iff] using hilt
        have := ihidx j hj
        refine ⟨this.1, this.2.1, ?_⟩
        rw [this.2.2]
        congr 1
        omega

/-- The start loop over `pre ++ f :: post` where `pre` fully succeeds and
`f` fails: the error is returned, the functions of `pre` keep their newly
recorded fields, `f` and `post` are untouched, and no engine call is made
beyond `f`'s failing one. -/
theorem startLoop_append (eng : Engine) :
    ∀ (pre : List Func) (k : Nat) (pre2 : List Func) (evs : List Event)
      (f : Func) (post : List Func) (e : String) (ev : List Event),
      startLoop eng k pre = (none, pre2, evs) →
      startFunction eng (k + pre.length) f = (.error e, ev) →
      startLoop eng k (pre ++ f :: post) =
        (some e, pre2 ++ f :: post, evs ++ ev)
  | [], k, pre2, evs, f, post, e, ev, h1, h2 => by
    simp only [startLoop, Prod.mk.injEq] at h1
    obtain ⟨hl, he⟩ := h1.2
    subst hl; subst he
    rw [List.length_nil, Nat.add_zero] at h2
    simp only [List.nil_append, startLoop, h2]
  | g :: rest, k, pre2, evs, f, post, e, ev, h1, h2 => by
    simp only [startLoop] at h1
    rcases hsf : startFunction eng k g with ⟨res, ev0⟩
    rw [hsf] at h1
    cases res with
    | error e0 => simp at h1
    | ok g2 =>
      rcases hr : startLoop eng (k + 1) rest with ⟨o2, rest2, evs2⟩
      rw [hr] at h1
      simp only [Prod.mk.injEq] at h1
      obtain ⟨ho, hl, he⟩ := h1
      subst ho; subst hl; subst he
      have h2' : startFunction eng ((k + 1) + rest.length) f = (.error e, ev) := by
        rw [show (k + 1) + rest.length = k + (g :: rest).length by simp; omega]
        exact h2
      have ih := startLoop_append eng rest (k + 1) rest2 evs2 f post e ev hr h2'
      simp only [List.cons_append, startLoop, hsf]
      simp [ih, List.append_assoc]

/-- A converge pass whose stops all succeed issues exactly one timeout-0
stop per observed-running function, in order, against its recorded
`containerId`. -/
theorem stopRunningLoop_ok (eng : Engine) :
    ∀ funcs : List Func,
      (∀ f ∈ funcs, f.running = true → eng.stopResult f.containerId 0 = none) →
      stopRunningLoop eng funcs =
        (none, (funcs.filter (fun f => f.running)).map
          (fun f => Event.stopE f.containerId 0))
  | [], _ => rfl
  | f :: rest, h => by
    have ih := stopRunningLoop_ok eng rest (fun g hg => h g (by simp [hg]))
    by_cases hr : f.running
    · have hstop := h f (by simp) hr
      simp [stopRunningLoop, stopFunction, hr, hstop, ih]
    · simp [stopRunningLoop, hr, ih]

/-- C3 (amended): in the converge-to-empty step, a timeout-0 stop is
issued against the `containerId` of exactly the functions observed as
running; but no field is cleared — the start phase (and the pass's
result, if the start phase fails) sees the observe-step records with
`running`, `containerId` and `port` intact. -/
theorem C3_stop_issued_fields_not_cleared (eng : Engine) (funcs : List Func)
    (summary : List ContainerSummary)
    (hlist : eng.listResult = .ok summary)
    (hstops : ∀ f ∈ updateFunctionStatus summary funcs, f.running = true →
      eng.stopResult f.containerId 0 = none) :
    stopRunningLoop eng (updateFunctionStatus summary funcs) =
      (none, ((updateFunctionStatus summary funcs).filter
        (fun f => f.running)).map (fun f => Event.stopE f.containerId 0)) ∧
    Start eng funcs =
      ((startLoop eng 0 (updateFunctionStatus summary funcs)).1,
       (startLoop eng 0 (updateFunctionStatus summary funcs)).2.1,
       .listE ::
         ((((updateFunctionStatus summary funcs).filter
             (fun f => f.running)).map
            (fun f => Event.stopE f.containerId 0)) ++
          (startLoop eng 0 (updateFunctionStatus summary funcs)).2.2)) := by
  have h1 := stopRunningLoop_ok eng _ hstops
  refine ⟨h1, ?_⟩
  simp only [Start, hlist, h1]

/-- C3 counterexample: function `"echo"` is observed running as `"cid1"`;
the converge step stops `"cid1"`, yet when the subsequent create is
attempted the function still carries `running = true`, `containerId =
"cid1"` and its old port — nothing was cleared. -/
theorem C3_counterexample :
    Start engObservedCreateFail [fEchoB] =
      (some "create failed", [fRun],
        [.listE, .stopE "cid1" 0, .createE "slrun-echo"]) ∧
    fRun.running = true ∧ fRun.containerId = "cid1" :=
  ⟨rfl, rfl, rfl⟩

/-- C3 witness: the instantiated stop trace of the converge step — one
timeout-0 stop against `"cid1"`. -/
theorem C3_stop_issued_fields_not_cleared_witness :
    stopRunningLoop engObservedCreateFail
      (updateFunctionStatus [⟨"cid1", "slrun-echo"⟩] [fEchoB]) =
      (none, [.stopE "cid1" 0]) :=
  (C3_stop_issued_fields_not_cleared engObservedCreateFail [fEchoB]
    [⟨"cid1", "slrun-echo"⟩] rfl (by decide)).1

/-- C2 counterexample: a first `Start` against an engine with no
pre-existing containers succeeds (error `none`), records a container and
port for the function, yet leaves `running = false` — the start phase
never sets `running` to true. -/
theorem C2_counterexample :
    Start engAllOk [fEchoB] =
      (none, [⟨"echo", "./echo", "slrun-echo", "c0", false, 0⟩],
        [.listE, .createE "slrun-echo", .startE "c0", .inspectE "c0"]) ∧
    ((Start engAllOk [fEchoB]).2.1.getD 0 dfltFunc).running = false :=
  ⟨rfl, rfl⟩

/-- C2 (amended): after a successful reconciliation pass, every function's
`port` is the one the engine allocated to its create call, and the ports
are pairwise distinct whenever the engine allocated pairwise-distinct
ports; but `running` is not set by the start phase — it keeps the value
the observe step gave it (false on a first `Start`). -/
theorem C2_ports_distinct_running_not_set (eng : Engine) (funcs : List Func)
    (summary : List ContainerSummary) (stEvs : List Event)
    (funcs2 : List Func) (slEvs : List Event)
    (hlist : eng.listResult = .ok summary)
    (hstops : stopRunningLoop eng (updateFunctionStatus summary funcs) =
      (none, stEvs))
    (hsl : startLoop eng 0 (updateFunctionStatus summary funcs) =
      (none, funcs2, slEvs))
    (hinj : ∀ i, i < funcs.length → ∀ j, j < funcs.length → i ≠ j →
      allocatedPort eng i
          (((updateFunctionStatus summary funcs).getD i dfltFunc).imageName) ≠
        allocatedPort eng j
          (((updateFunctionStatus summary funcs).getD j dfltFunc).imageName)) :
    Start eng funcs = (none, funcs2, .listE :: (stEvs ++ slEvs)) ∧
    funcs2.length = funcs.length ∧
    (∀ i, i < funcs.length →
      (funcs2.getD i dfltFunc).running =
        ((updateFunctionStatus summary funcs).getD i dfltFunc).running ∧
      (funcs2.getD i dfltFunc).port =
        allocatedPort eng i
          (((updateFunctionStatus summary funcs).getD i dfltFunc).imageName)) ∧
    (∀ i, i < funcs.length → ∀ j, j < funcs.length → i ≠ j →
      (funcs2.getD i dfltFunc).port ≠ (funcs2.getD j dfltFunc).port) := by
  have hlen1 : (updateFunctionStatus summary funcs).length = funcs.length := by
    simp [updateFunctionStatus]
  obtain ⟨hlen2, hidx⟩ :=
    startLoop_ok eng (updateFunctionStatus summary funcs) 0 funcs2 slEvs hsl
  have hport : ∀ i, i < funcs.length →
      (funcs2.getD i dfltFunc).running =
        ((updateFunctionStatus summary funcs).getD i dfltFunc).running ∧
      (funcs2.getD i dfltFunc).port =
        allocatedPort eng i
          (((updateFunctionStatus summary funcs).getD i dfltFunc).imageName) := by
    intro i hi
    have hi1 : i < (updateFunctionStatus summary funcs).length := by
      rw [hlen1]; exact hi
    obtain ⟨ha, hb, hcp⟩ := hidx i hi1
    exact ⟨ha, by rw [hcp, Nat.zero_add]⟩
  refine ⟨?_, hlen2.trans hlen1, hport, ?_⟩
  · simp only [Start, hlist, hstops, hsl]
  · intro i hi j hj hne
    rw [(hport i hi).2, (hport j hj).2]
    exact hinj i hi j hj hne

/-- C2 witness: a successful pass over two functions records the two
engine-allocated ports 0 and 1 (distinct) while both functions keep
`running = false`. -/
theorem C2_ports_distinct_running_not_set_witness :
    Start engAllOk [fEchoB, fIdle] =
      (none,
       [⟨"echo", "./echo", "slrun-echo", "c0", false, 0⟩,
        ⟨"idle", "./idle", "slrun-idle", "c1", false, 1⟩],
       [.listE, .createE "slrun-echo", .startE "c0", .inspectE "c0",
        .createE "slrun-idle", .startE "c1", .inspectE "c1"]) :=
  (C2_ports_distinct_running_not_set engAllOk [fEchoB, fIdle] [] []
    [⟨"echo", "./echo", "slrun-echo", "c0", false, 0⟩,
     ⟨"idle", "./idle", "slrun-idle", "c1", false, 1⟩]
    [.createE "slrun-echo", .startE "c0", .inspectE "c0",
     .createE "slrun-idle", .startE "c1", .inspectE "c1"]
    rfl rfl rfl (by decide)).1

/-- C8: during the start phase, a failing create/start/inspect aborts the
pass: the error is propagated by `Start`, the failing function and all
later functions are untouched (they appear verbatim after the updated
prefix, with no engine calls issued for the later ones), and the
functions started earlier keep their newly recorded container and
engine-allocated port (no rollback). -/
theorem C8_start_error_propagated (eng : Engine) (funcs : List Func)
    (summary : List ContainerSummary) (pre post : List Func) (f : Func)
    (pre2 : List Func) (stEvs evs ev : List Event) (e : String)
    (hlist : eng.listResult = .ok summary)
    (hsplit : updateFunctionStatus summary funcs = pre ++ f :: post)
    (hstops : stopRunningLoop eng (pre ++ f :: post) = (none, stEvs))
    (hpre : startLoop eng 0 pre = (none, pre2, evs))
    (hf : startFunction eng pre.length f = (.error e, ev)) :
    Start eng funcs =
      (some e, pre2 ++ f :: post, .listE :: (stEvs ++ (evs ++ ev))) ∧
    pre2.length = pre.length ∧
    (∀ i, i < pre.length →
      (pre2.getD i dfltFunc).port =
        allocatedPort eng i ((pre.getD i dfltFunc).imageName)) := by
  have hf' : startFunction eng (0 + pre.length) f = (.error e, ev) := by
    rw [Nat.zero_add]; exact hf
  have hsl := startLoop_append eng pre 0 pre2 evs f post e ev hpre hf'
  obtain ⟨hlen, hidx⟩ := startLoop_ok eng pre 0 pre2 evs hpre
  refine ⟨?_, hlen, ?_⟩
  · simp only [Start, hlist, hsplit, hstops, hsl]
  · intro i hi
    rw [(hidx i hi).2.2, Nat.zero_add]

/-- C8 witness: the second function's create fails with `"boom"`; `Start`
returns the error, the first function keeps container `"c0"` and port
9000, and the second function is left untouched with no further engine
calls. -/
theorem C8_start_error_propagated_witness :
    Start engSecondCreateFails [fEchoB, fIdle] =
      (some "boom",
       [⟨"echo", "./echo", "slrun-echo", "c0", false, 9000⟩, fIdle],
       [.listE, .createE "slrun-echo", .startE "c0", .inspectE "c0",
        .createE "slrun-idle"]) :=
  (C8_start_error_propagated engSecondCreateFails [fEchoB, fIdle] []
    [fEchoB] [] fIdle [⟨"echo", "./echo", "slrun-echo", "c0", false, 9000⟩]
    [] [.createE "slrun-echo", .startE "c0", .inspectE "c0"]
    [.createE "slrun-idle"] "boom" rfl rfl rfl rfl rfl).1

end Slrun
